import Mathlib

/-
Verification of the mesh session coordinator of the JoinUs frontend
(`src/hooks/useSocket.ts`, `useWebRTC` hook, and the teardown wiring in
`src/pages/Conference/Conference.tsx`).

The TypeScript hook is shallowly embedded as pure state-transition
functions over an explicit `HookState`.  The two mutable `useRef` maps
(`peersRef`, `participantsRef`) become association lists with JavaScript
`Map` semantics (`mapSet` replaces in place preserving insertion order,
`mapDelete` removes the unique entry, `mapGet` looks up).  Side effects
on the outside world — `socket.emit`, `call.answer`, `peer.call`,
`call.close`, `track.stop` — are recorded in explicit ledgers inside the
state so that theorems can count created/closed connection handles and
stopped tracks.
-/

namespace JoinUs

set_option autoImplicit false

/-- A local media track (`MediaStreamTrack`): its `enabled` flag (flipped by
the mute/video toggles) and whether `stop()` has been called on it. -/
structure Track where
  enabled : Bool
  stopped : Bool
deriving DecidableEq, Repr

/-- A media stream: the lists returned by `getAudioTracks()` and
`getVideoTracks()`. -/
structure MediaStream where
  audioTracks : List Track
  videoTracks : List Track
deriving DecidableEq, Repr

/-- `stream.getTracks()`. -/
def MediaStream.getTracks (s : MediaStream) : List Track :=
  s.audioTracks ++ s.videoTracks

/-- `track.stop()`. -/
def stopTrack (t : Track) : Track :=
  { t with stopped := true }

/-- Stopping every track of a stream (`getTracks().forEach(t => t.stop())`). -/
def MediaStream.stopAll (s : MediaStream) : MediaStream :=
  { audioTracks := s.audioTracks.map stopTrack
    videoTracks := s.videoTracks.map stopTrack }

/-- An underlying point-to-point connection handle (a PeerJS `MediaConnection`),
identified by the order in which `peer.call` created it. -/
structure CallHandle where
  id : Nat
deriving DecidableEq, Repr

/-- The source's `PeerConnection` record type: one entry of `peersRef`.
`call` is `Option` because the code guards with `if (peer.call)`. -/
structure PeerConnection where
  peerId : String
  userName : String
  call : Option CallHandle
  stream : Option Nat
  isVideoEnabled : Bool
deriving DecidableEq, Repr

/-- Messages emitted on the signaling socket by the hook.
`joinRoom` carries `isVideoEnabled` as an `Option` because the late-join
effect emits `join-room` without that field. -/
inductive EmitMsg where
  | joinRoom (roomId peerId userName : String) (isVideoEnabled : Option Bool)
  | videoStateChanged (roomId peerId : String) (isVideoOff : Bool)
deriving DecidableEq, Repr

/-- JavaScript `Map.prototype.set`: replace in place if the key exists
(preserving insertion order), otherwise append at the end. -/
def mapSet {α : Type} : List (String × α) → String → α → List (String × α)
  | [], k, v => [(k, v)]
  | (k', v') :: rest, k, v =>
      if k' = k then (k, v) :: rest else (k', v') :: mapSet rest k v

/-- JavaScript `Map.prototype.get` (`undefined` becomes `none`). -/
def mapGet {α : Type} : List (String × α) → String → Option α
  | [], _ => none
  | (k', v') :: rest, k => if k' = k then some v' else mapGet rest k

/-- JavaScript `Map.prototype.delete`: removes the (unique) entry for the key. -/
def mapDelete {α : Type} : List (String × α) → String → List (String × α)
  | [], _ => []
  | (k', v') :: rest, k =>
      if k' = k then rest else (k', v') :: mapDelete rest k

/-- JavaScript `Map.prototype.has`. -/
def mapHasKey {α : Type} (m : List (String × α)) (k : String) : Bool :=
  (mapGet m k).isSome

/-- Payload of the `user-joined` socket event.  `isVideoEnabled` is an
`Option` because the code applies `?? true` to it. -/
structure JoinPayload where
  peerId : String
  userName : String
  isVideoEnabled : Option Bool
deriving DecidableEq, Repr

/-- A scheduled `setTimeout` callback of `handleUserJoined`: the deferred
origination with the values it captured. -/
structure PendingOrigination where
  peerId : String
  userName : String
  isVideoEnabled : Option Bool
deriving DecidableEq, Repr

/-- One entry of the `get-users` participants payload. -/
structure RosterEntry where
  peerId : String
  userName : String
  isVideoEnabled : Option Bool
deriving DecidableEq, Repr

/-- The state of one `useWebRTC` invocation, together with ledgers of the
externally visible effects it has performed.

* `peers` is `peersRef.current`, `participants` is `participantsRef.current`.
* `pending` is the queue of scheduled-but-unfired deferred originations
  (the code never calls `clearTimeout`, so entries only leave by firing).
* `createdCalls` records every `peer.call(peerId, ...)` invocation as
  (handle id, callee peerId); `answeredWith` records every `call.answer`
  as (incoming handle id, local stream passed); `closedCalls` records
  every `call.close()` by handle id.
* `socketPresent` / `socketConnected` model `socket !== null` and
  `socket.connected`; `peerCreated` / `peerDestroyed` model the life of
  `peerInstance.current`. -/
structure HookState where
  roomId : String
  selfName : String
  socketPresent : Bool
  socketConnected : Bool
  peerCreated : Bool
  peerDestroyed : Bool
  myPeerId : Option String
  localStream : Option MediaStream
  isMuted : Bool
  isVideoOff : Bool
  isInitialized : Bool
  errorMsg : Option String
  permissionState : String
  peers : List (String × PeerConnection)
  participants : List (String × String)
  pending : List PendingOrigination
  emitted : List EmitMsg
  answeredWith : List (Nat × MediaStream)
  createdCalls : List (Nat × String)
  closedCalls : List Nat
  nextCallId : Nat
deriving DecidableEq, Repr

/-- The hook's state at mount, before any effect body has run. -/
def mkInitialState (roomId selfName : String) (socketPresent socketConnected : Bool) :
    HookState :=
  { roomId := roomId
    selfName := selfName
    socketPresent := socketPresent
    socketConnected := socketConnected
    peerCreated := false
    peerDestroyed := false
    myPeerId := none
    localStream := none
    isMuted := false
    isVideoOff := false
    isInitialized := false
    errorMsg := none
    permissionState := "prompt"
    peers := []
    participants := []
    pending := []
    emitted := []
    answeredWith := []
    createdCalls := []
    closedCalls := []
    nextCallId := 0 }

example : mapGet (mapSet ([] : List (String × Nat)) "a" 3) "a" = some 3 := by decide
example : mapDelete (mapSet ([] : List (String × Nat)) "a" 3) "a" = [] := by decide

/-- The `isVideoEnabled` flag sent with the first `join-room` emission:
`!stream.getVideoTracks()[0].enabled ? false : true`.  Under the hook's
`video: {...}` constraint a successful `getUserMedia` always yields at
least one video track, so the `[0]` access is total there. -/
def joinVideoFlag (s : MediaStream) : Bool :=
  match s.videoTracks with
  | t :: _ => t.enabled
  | [] => true

/-- The `initWebRTC` async function of the first effect
(`useSocket.ts` lines 223-348), run to the point where the peer's `open`
event has fired (on success).  `acquired` is the outcome of
`navigator.mediaDevices.getUserMedia`: `some s` on success, `none` when
the promise rejects (permission denied / device error).  `assignedId` is
the id the peer server hands to the `open` listener. -/
def initWebRTC (st : HookState) (acquired : Option MediaStream)
    (assignedId : String) : HookState :=
  match acquired with
  | some s =>
      let st1 := { st with localStream := some s, permissionState := "granted",
                           peerCreated := true }
      let st2 := { st1 with myPeerId := some assignedId }
      if st2.socketPresent && st2.socketConnected then
        { st2 with
            emitted := st2.emitted ++
              [EmitMsg.joinRoom st2.roomId assignedId st2.selfName
                (some (joinVideoFlag s))],
            isInitialized := true }
      else st2
  | none =>
      { st with
          errorMsg :=
            some "No se pudo acceder al microfono o camara. Por favor, permite el acceso.",
          permissionState := "denied" }

/-- The reconnection effect (`useSocket.ts` lines 420-429): if the socket is
connected, the peer instance exists, the hook is not yet initialized and the
peer already has an id, emit `join-room` (without the video flag) and mark
initialized. -/
def lateJoinEffect (st : HookState) : HookState :=
  if st.socketPresent && st.socketConnected && st.peerCreated && !st.isInitialized then
    match st.myPeerId with
    | some pid =>
        { st with
            emitted := st.emitted ++
              [EmitMsg.joinRoom st.roomId pid st.selfName none],
            isInitialized := true }
    | none => st
  else st

/-- The `user-joined` handler (`useSocket.ts` lines 437-503), up to and
including scheduling the `setTimeout`: caches the name, returns early when
`peersRef.current.has(peerId)`, otherwise schedules a deferred origination
(the timer body runs later, see `fireNextTimer`). -/
def handleUserJoined (st : HookState) (e : JoinPayload) : HookState :=
  let st1 := { st with participants := mapSet st.participants e.peerId e.userName }
  if mapHasKey st1.peers e.peerId then st1
  else
    { st1 with
        pending := st1.pending ++ [⟨e.peerId, e.userName, e.isVideoEnabled⟩] }

/-- The body of the `setTimeout` callback scheduled by `handleUserJoined`
(`useSocket.ts` lines 450-502), firing the oldest pending timer.  It calls
`peerInstance.current!.call(peerId, localStream)` — creating a fresh
connection handle — and, unless the library returned a falsy call
(`callCreated = false` models `if (!call) return`), stores a fresh
`PeerConnection` into `peersRef` via `set`.  Note the callback performs no
registry or session-state re-check. -/
def fireNextTimer (st : HookState) (callCreated : Bool) : HookState :=
  match st.pending with
  | [] => st
  | p :: rest =>
      let st1 := { st with pending := rest }
      if callCreated then
        let h : CallHandle := ⟨st1.nextCallId⟩
        let pc : PeerConnection :=
          { peerId := p.peerId
            userName := p.userName
            call := some h
            stream := none
            isVideoEnabled := p.isVideoEnabled.getD true }
        { st1 with
            nextCallId := st1.nextCallId + 1
            createdCalls := st1.createdCalls ++ [(h.id, p.peerId)]
            peers := mapSet st1.peers p.peerId pc }
      else st1

/-- The `call.on('stream')` handler of an outgoing (originated) call
(`useSocket.ts` lines 471-489): if the record still exists, store the
remote stream in it. -/
def handleOutgoingStream (st : HookState) (peerId : String) (remoteStream : Nat) :
    HookState :=
  match mapGet st.peers peerId with
  | some pc =>
      { st with peers := mapSet st.peers peerId { pc with stream := some remoteStream } }
  | none => st

/-- The `call.on('error')` handler of an outgoing call
(`useSocket.ts` lines 491-495): deletes the record.  It does not call
`call.close()`. -/
def callErrorHandler (st : HookState) (peerId : String) : HookState :=
  { st with peers := mapDelete st.peers peerId }

/-- The `call.on('close')` handlers (`useSocket.ts` lines 331-335 and
497-501): delete the record for the closed call. -/
def callCloseHandler (st : HookState) (peerId : String) : HookState :=
  { st with peers := mapDelete st.peers peerId }

/-- The `user-disconnected` handler (`useSocket.ts` lines 505-513): closes
the call handle if the record has one, then deletes the record. -/
def handleUserDisconnected (st : HookState) (peerId : String) : HookState :=
  let st1 :=
    match mapGet st.peers peerId with
    | some pc =>
        match pc.call with
        | some h => { st with closedCalls := st.closedCalls ++ [h.id] }
        | none => st
    | none => st
  { st1 with peers := mapDelete st1.peers peerId }

/-- An incoming call signal delivered to `peer.on('call')`: the library call
object, identified by its handle id and the caller's peer id (`call.peer`). -/
structure IncomingCall where
  handleId : Nat
  peer : String
deriving DecidableEq, Repr

/-- The `peer.on('call')` handler (`useSocket.ts` lines 297-336) at the
moment the call signal arrives: `call.answer(stream)` with the stream the
`initWebRTC` closure captured from `getUserMedia`.  The registry is not
touched here — the record is only inserted by `handleIncomingStream` once
the remote stream arrives. -/
def handleIncomingCall (st : HookState) (c : IncomingCall)
    (capturedStream : MediaStream) : HookState :=
  { st with answeredWith := st.answeredWith ++ [(c.handleId, capturedStream)] }

/-- The `call.on('stream')` handler of an answered incoming call
(`useSocket.ts` lines 304-329): resolve the display name from
`participantsRef` (defaulting to "Usuario") and insert the record with the
received remote stream. -/
def handleIncomingStream (st : HookState) (c : IncomingCall) (remoteStream : Nat) :
    HookState :=
  let storedName := mapGet st.participants c.peer
  let pc : PeerConnection :=
    { peerId := c.peer
      userName := storedName.getD "Usuario"
      call := some ⟨c.handleId⟩
      stream := some remoteStream
      isVideoEnabled := true }
  { st with peers := mapSet st.peers c.peer pc }

/-- First pass of the `get-users` handler (`useSocket.ts` lines 380-382):
cache every entry's name in `participantsRef`. -/
def cacheRosterNames (m : List (String × String)) (es : List RosterEntry) :
    List (String × String) :=
  es.foldl (fun acc e => mapSet acc e.peerId e.userName) m

/-- One step of the second pass of the `get-users` handler
(`useSocket.ts` lines 385-392): update an existing record's name and video
flag in place; entries with no matching record change nothing. -/
def rosterStep (m : List (String × PeerConnection)) (e : RosterEntry) :
    List (String × PeerConnection) :=
  match mapGet m e.peerId with
  | some ex =>
      mapSet m e.peerId
        { ex with userName := e.userName, isVideoEnabled := e.isVideoEnabled.getD true }
  | none => m

/-- Second pass of the `get-users` handler over the whole snapshot. -/
def applyRosterToPeers (m : List (String × PeerConnection)) (es : List RosterEntry) :
    List (String × PeerConnection) :=
  es.foldl rosterStep m

/-- The `get-users` handler (`useSocket.ts` lines 376-395). -/
def handleGetUsers (st : HookState) (es : List RosterEntry) : HookState :=
  { st with
      participants := cacheRosterNames st.participants es
      peers := applyRosterToPeers st.peers es }

/-- The `user-toggled-video` handler (`useSocket.ts` lines 398-406): if a
record for the peer exists, set `isVideoEnabled := !isVideoOff`; otherwise
nothing happens. -/
def handleUserToggledVideo (st : HookState) (peerId : String) (vOff : Bool) :
    HookState :=
  match mapGet st.peers peerId with
  | some pc =>
      { st with peers := mapSet st.peers peerId { pc with isVideoEnabled := !vOff } }
  | none => st

/-- `toggleMute` (`useSocket.ts` lines 528-536): if there is a local stream
with an audio track, flip its `enabled` flag and set `isMuted` to the
negation of the new flag.  Never emits anything. -/
def toggleMute (st : HookState) : HookState :=
  match st.localStream with
  | none => st
  | some s =>
      match s.audioTracks with
      | [] => st
      | t :: ts =>
          let enabledNew := !t.enabled
          { st with
              localStream := some { s with audioTracks := { t with enabled := enabledNew } :: ts }
              isMuted := !enabledNew }

/-- `toggleVideo` (`useSocket.ts` lines 541-558): if there is a local stream
with a video track, flip its `enabled` flag, set `isVideoOff` to the
negation of the new flag, and — if the socket is present and our peer id is
known — emit one `toggle-video` message. -/
def toggleVideo (st : HookState) : HookState :=
  match st.localStream with
  | none => st
  | some s =>
      match s.videoTracks with
      | [] => st
      | t :: ts =>
          let enabledNew := !t.enabled
          let st1 :=
            { st with
                localStream := some { s with videoTracks := { t with enabled := enabledNew } :: ts }
                isVideoOff := !enabledNew }
          if st1.socketPresent then
            match st1.myPeerId with
            | some pid =>
                { st1 with
                    emitted := st1.emitted ++
                      [EmitMsg.videoStateChanged st1.roomId pid (!enabledNew)] }
            | none => st1
          else st1

/-- Call ids held by the records of the registry (used by the cleanup to
close every call in `peersRef`). -/
def registryCallIds (m : List (String × PeerConnection)) : List Nat :=
  m.foldl
    (fun acc kv =>
      match kv.2.call with
      | some h => acc ++ [h.id]
      | none => acc) []

/-- The cleanup function returned by the init effect
(`useSocket.ts` lines 353-366), also reached through `handleEndCall` in
`Conference.tsx` (socket disconnects followed by navigation, which unmounts
the hook).  `captured` is the value the cleanup closure holds for the
`localStream` state variable: the value from the render in which the effect
last ran (the effect's dependency list is `[socket, roomId, userName]`, so
the closure is not refreshed when `setLocalStream` later fires).  When
`captured` is non-`none` it aliases the stream in `st.localStream`, so
stopping it stops the state's tracks. -/
def cleanup (captured : Option MediaStream) (st : HookState) : HookState :=
  let st1 :=
    match captured with
    | some _ => { st with localStream := st.localStream.map MediaStream.stopAll }
    | none => st
  let st2 := if st1.peerCreated then { st1 with peerDestroyed := true } else st1
  { st2 with
      closedCalls := st2.closedCalls ++ registryCallIds st2.peers
      peers := [] }

/-- Tracks of the local stream that were acquired but never stopped. -/
def unstoppedTracks (st : HookState) : List Track :=
  match st.localStream with
  | some s => s.getTracks.filter (fun t => !t.stopped)
  | none => []

/-- How many connection handles have been originated towards a given peer. -/
def countCallsFor (st : HookState) (peerId : String) : Nat :=
  (st.createdCalls.filter (fun c => c.2 == peerId)).length

theorem mapGet_mapSet {α : Type} (m : List (String × α)) (k p : String) (v : α) :
    mapGet (mapSet m k v) p = if p = k then some v else mapGet m p := by
  induction m with
  | nil =>
      by_cases h : p = k <;> simp [mapSet, mapGet, h]
      · intro h'
        exact absurd h'.symm h
  | cons hd tl ih =>
      by_cases hk : hd.1 = k
      · by_cases hp : p = k
        · simp [mapSet, mapGet, hk, hp]
        · have hkp : ¬ k = p := fun h' => hp h'.symm
          simp [mapSet, mapGet, hk, hp, hkp]
      · by_cases hp : hd.1 = p
        · have hpk : ¬ p = k := fun h => hk (hp.trans h)
          simp [mapSet, mapGet, hk, hp, hpk]
        · simp [mapSet, mapGet, hk, hp, ih]

theorem mapGet_mapSet_self {α : Type} (m : List (String × α)) (k : String) (v : α) :
    mapGet (mapSet m k v) k = some v := by
  simp [mapGet_mapSet]

theorem mapGet_mapSet_ne {α : Type} (m : List (String × α)) (k p : String) (v : α)
    (h : p ≠ k) : mapGet (mapSet m k v) p = mapGet m p := by
  simp [mapGet_mapSet, h]

theorem mapGet_mapDelete_ne {α : Type} (m : List (String × α)) (k p : String)
    (h : p ≠ k) : mapGet (mapDelete m k) p = mapGet m p := by
  induction m with
  | nil => rfl
  | cons hd tl ih =>
      by_cases hk : hd.1 = k
      · have hkp : ¬ k = p := fun h' => h h'.symm
        simp [mapDelete, mapGet, hk, hkp]
      · by_cases hp : hd.1 = p
        · simp [mapDelete, mapGet, hk, hp, h, ih]
        · simp [mapDelete, mapGet, hk, hp, ih]

theorem mapDelete_of_absent {α : Type} (m : List (String × α)) (k : String)
    (h : mapGet m k = none) : mapDelete m k = m := by
  induction m with
  | nil => rfl
  | cons hd tl ih =>
      by_cases hk : hd.1 = k
      · simp [mapGet, hk] at h
      · simp [mapGet, hk] at h
        simp [mapDelete, hk, ih h]

/-- A demo acquired stream: one audio track and one video track, both live. -/
def demoStream : MediaStream :=
  { audioTracks := [{ enabled := true, stopped := false }]
    videoTracks := [{ enabled := true, stopped := false }] }

/-- A demo state in the Joined steady state: media acquired, peer open as
"me", socket connected, presence announced, registry still empty. -/
def demoJoined : HookState :=
  { mkInitialState "482913" "Alice" true true with
      peerCreated := true
      myPeerId := some "me"
      localStream := some demoStream
      isInitialized := true
      emitted := [EmitMsg.joinRoom "482913" "me" "Alice" (some true)] }

/-- C1 (counterexample): the claim that the grace-timer callback re-checks the
registry and abandons the origination is false on the code.  Concrete run: a
`user-joined("X")` notification schedules a deferred origination; during the
grace window the peer calls us first, so the incoming-call path inserts a
Connected PeerRecord for "X" (handle 7, remote stream 42).  When the timer
fires, the callback nevertheless originates (a fresh handle, id 0, appears in
the origination ledger) and its new record — with no remote stream —
replaces the Connected one: the first successful insert did not win. -/
theorem C1_timer_no_recheck_counterexample :
    mapHasKey (handleIncomingStream
      (handleIncomingCall (handleUserJoined demoJoined ⟨"X", "Xena", some true⟩)
        ⟨7, "X"⟩ demoStream) ⟨7, "X"⟩ 42).peers "X" = true ∧
    (handleIncomingStream
      (handleIncomingCall (handleUserJoined demoJoined ⟨"X", "Xena", some true⟩)
        ⟨7, "X"⟩ demoStream) ⟨7, "X"⟩ 42).pending = [⟨"X", "Xena", some true⟩] ∧
    mapGet (handleIncomingStream
      (handleIncomingCall (handleUserJoined demoJoined ⟨"X", "Xena", some true⟩)
        ⟨7, "X"⟩ demoStream) ⟨7, "X"⟩ 42).peers "X" =
      some { peerId := "X", userName := "Xena", call := some ⟨7⟩,
             stream := some 42, isVideoEnabled := true } ∧
    (fireNextTimer (handleIncomingStream
      (handleIncomingCall (handleUserJoined demoJoined ⟨"X", "Xena", some true⟩)
        ⟨7, "X"⟩ demoStream) ⟨7, "X"⟩ 42) true).createdCalls = [(0, "X")] ∧
    mapGet (fireNextTimer (handleIncomingStream
      (handleIncomingCall (handleUserJoined demoJoined ⟨"X", "Xena", some true⟩)
        ⟨7, "X"⟩ demoStream) ⟨7, "X"⟩ 42) true).peers "X" =
      some { peerId := "X", userName := "Xena", call := some ⟨0⟩,
             stream := none, isVideoEnabled := true } := by
  decide

/-- C1 (amended): the duplicate-origination guard lives at notification time,
not in the timer callback.  (1) When `user-joined` arrives for a peerId that
is already in the registry, the handler only refreshes the name cache: no
origination is scheduled, nothing else changes.  (2) When a scheduled timer
fires, the callback unconditionally originates: it creates a fresh connection
handle and stores a fresh record over whatever the registry holds for that
peerId, with no registry or session-state re-check. -/
theorem C1_notification_time_guard :
    (∀ (st : HookState) (e : JoinPayload), mapHasKey st.peers e.peerId = true →
        handleUserJoined st e =
          { st with participants := mapSet st.participants e.peerId e.userName }) ∧
    (∀ (st : HookState) (p : PendingOrigination) (rest : List PendingOrigination),
        st.pending = p :: rest →
        fireNextTimer st true =
          { st with
              pending := rest
              nextCallId := st.nextCallId + 1
              createdCalls := st.createdCalls ++ [(st.nextCallId, p.peerId)]
              peers := mapSet st.peers p.peerId
                { peerId := p.peerId, userName := p.userName,
                  call := some ⟨st.nextCallId⟩, stream := none,
                  isVideoEnabled := p.isVideoEnabled.getD true } }) := by
  constructor
  · intro st e h
    simp [handleUserJoined, h]
  · intro st p rest h
    simp [fireNextTimer, h]

/-- C1 (witness): the notification-time guard and the unconditional timer
body, exercised at concrete inputs. -/
theorem C1_notification_time_guard_witness :
    (mapHasKey (handleIncomingStream (handleIncomingCall demoJoined ⟨3, "X"⟩ demoStream)
        ⟨3, "X"⟩ 9).peers "X" = true ∧
      handleUserJoined (handleIncomingStream (handleIncomingCall demoJoined ⟨3, "X"⟩ demoStream)
          ⟨3, "X"⟩ 9) ⟨"X", "Xena", some true⟩ =
        { (handleIncomingStream (handleIncomingCall demoJoined ⟨3, "X"⟩ demoStream)
            ⟨3, "X"⟩ 9) with
            participants :=
              mapSet (handleIncomingStream (handleIncomingCall demoJoined ⟨3, "X"⟩ demoStream)
                ⟨3, "X"⟩ 9).participants "X" "Xena" }) ∧
    fireNextTimer (handleUserJoined demoJoined ⟨"Y", "Yuri", none⟩) true =
      { (handleUserJoined demoJoined ⟨"Y", "Yuri", none⟩) with
          pending := []
          nextCallId := 1
          createdCalls := [(0, "Y")]
          peers := mapSet (handleUserJoined demoJoined ⟨"Y", "Yuri", none⟩).peers "Y"
            { peerId := "Y", userName := "Yuri", call := some ⟨0⟩, stream := none,
              isVideoEnabled := true } } :=
  ⟨⟨by decide,
    C1_notification_time_guard.1 _ ⟨"X", "Xena", some true⟩ (by decide)⟩,
   C1_notification_time_guard.2 _ ⟨"Y", "Yuri", none⟩ [] (by decide)⟩

/-- C2: delivering `user-joined("X")` twice within the grace window (network
replay) creates TWO underlying connection handles for X, not one: the `has`
guard runs before the timer is scheduled, while the registry insert happens
only when the timer fires, so the second notification passes the guard too.
Both timers fire, `peer.call` runs twice (origination ledger `[(0,"X"),(1,"X")]`),
the second record overwrites the first, and the first handle is never closed. -/
theorem C2_duplicate_join_two_handles :
    (fireNextTimer (fireNextTimer
      (handleUserJoined (handleUserJoined demoJoined ⟨"X", "Xena", some true⟩)
        ⟨"X", "Xena", some true⟩) true) true).createdCalls = [(0, "X"), (1, "X")] ∧
    countCallsFor (fireNextTimer (fireNextTimer
      (handleUserJoined (handleUserJoined demoJoined ⟨"X", "Xena", some true⟩)
        ⟨"X", "Xena", some true⟩) true) true) "X" = 2 ∧
    mapGet (fireNextTimer (fireNextTimer
      (handleUserJoined (handleUserJoined demoJoined ⟨"X", "Xena", some true⟩)
        ⟨"X", "Xena", some true⟩) true) true).peers "X" =
      some { peerId := "X", userName := "Xena", call := some ⟨1⟩,
             stream := none, isVideoEnabled := true } ∧
    (fireNextTimer (fireNextTimer
      (handleUserJoined (handleUserJoined demoJoined ⟨"X", "Xena", some true⟩)
        ⟨"X", "Xena", some true⟩) true) true).closedCalls = [] := by
  decide

/-- C3: teardown leaks the acquired local tracks.  The init effect's
dependency list is `[socket, roomId, userName]`, so its cleanup closure keeps
the `localStream` value of the render in which the effect ran — `none`,
because `getUserMedia` resolves only after the effect body returned.  Run on
a mounted state (captured value `none`), with media since acquired (two live
tracks) and one connected peer: the cleanup closes the registry handle and
clears the registry, but `if (localStream)` sees the captured `none`, so no
`track.stop()` runs — both acquired tracks remain unstopped after teardown. -/
theorem C3_cleanup_stale_closure_leaks_tracks :
    (mkInitialState "482913" "Alice" true true).localStream = none ∧
    (cleanup (mkInitialState "482913" "Alice" true true).localStream
      (handleIncomingStream
        (handleIncomingCall (initWebRTC (mkInitialState "482913" "Alice" true true)
          (some demoStream) "me") ⟨0, "B"⟩ demoStream) ⟨0, "B"⟩ 5)).closedCalls = [0] ∧
    (cleanup (mkInitialState "482913" "Alice" true true).localStream
      (handleIncomingStream
        (handleIncomingCall (initWebRTC (mkInitialState "482913" "Alice" true true)
          (some demoStream) "me") ⟨0, "B"⟩ demoStream) ⟨0, "B"⟩ 5)).peers = [] ∧
    (cleanup (mkInitialState "482913" "Alice" true true).localStream
      (handleIncomingStream
        (handleIncomingCall (initWebRTC (mkInitialState "482913" "Alice" true true)
          (some demoStream) "me") ⟨0, "B"⟩ demoStream) ⟨0, "B"⟩ 5)).localStream =
      some demoStream ∧
    (unstoppedTracks (cleanup (mkInitialState "482913" "Alice" true true).localStream
      (handleIncomingStream
        (handleIncomingCall (initWebRTC (mkInitialState "482913" "Alice" true true)
          (some demoStream) "me") ⟨0, "B"⟩ demoStream) ⟨0, "B"⟩ 5))).length = 2 := by
  decide

/-- C4 (counterexample): on media-acquisition failure the hook reports the
failure (permissionState denied, error message) but does not join in
degraded mode: run `initWebRTC` on a freshly mounted state with a connected
socket and a rejecting `getUserMedia` — nothing is emitted (presence is never
announced), no peer endpoint exists (so no incoming call could ever be
answered), and the late-join effect changes nothing. -/
theorem C4_no_degraded_join_counterexample :
    (initWebRTC (mkInitialState "482913" "Alice" true true) none "p1").permissionState =
      "denied" ∧
    (initWebRTC (mkInitialState "482913" "Alice" true true) none "p1").errorMsg =
      some "No se pudo acceder al microfono o camara. Por favor, permite el acceso." ∧
    (initWebRTC (mkInitialState "482913" "Alice" true true) none "p1").emitted = [] ∧
    (initWebRTC (mkInitialState "482913" "Alice" true true) none "p1").peerCreated = false ∧
    (initWebRTC (mkInitialState "482913" "Alice" true true) none "p1").isInitialized = false ∧
    lateJoinEffect (initWebRTC (mkInitialState "482913" "Alice" true true) none "p1") =
      initWebRTC (mkInitialState "482913" "Alice" true true) none "p1" := by
  decide

/-- C4 (amended): for every fresh mount, when local media acquisition fails
the failure is reported as state — permissionState becomes "denied" and an
error message is set — but the coordinator does not proceed: no local
stream, no peer endpoint, no peer id, nothing emitted (presence never
announced), not initialized, and the late-join effect is a no-op, so the
session never joins the room, in degraded mode or otherwise. -/
theorem C4_failure_reported_but_no_join :
    ∀ (roomN selfN pid : String) (sp sc : Bool),
      (initWebRTC (mkInitialState roomN selfN sp sc) none pid).permissionState = "denied" ∧
      (initWebRTC (mkInitialState roomN selfN sp sc) none pid).errorMsg.isSome = true ∧
      (initWebRTC (mkInitialState roomN selfN sp sc) none pid).emitted = [] ∧
      (initWebRTC (mkInitialState roomN selfN sp sc) none pid).isInitialized = false ∧
      (initWebRTC (mkInitialState roomN selfN sp sc) none pid).peerCreated = false ∧
      (initWebRTC (mkInitialState roomN selfN sp sc) none pid).myPeerId = none ∧
      (initWebRTC (mkInitialState roomN selfN sp sc) none pid).localStream = none ∧
      lateJoinEffect (initWebRTC (mkInitialState roomN selfN sp sc) none pid) =
        initWebRTC (mkInitialState roomN selfN sp sc) none pid := by
  intro roomN selfN pid sp sc
  refine ⟨rfl, rfl, rfl, rfl, rfl, rfl, rfl, ?_⟩
  simp [lateJoinEffect, initWebRTC, mkInitialState]

/-- Readiness for a video toggle in the Joined steady state: the socket is
present, our peer id is known, and the local stream has a video track whose
`enabled` flag agrees with `isVideoOff`. -/
def videoReadyB (st : HookState) : Bool :=
  st.socketPresent && st.myPeerId.isSome &&
    (match st.localStream with
     | some s =>
         match s.videoTracks with
         | t :: _ => st.isVideoOff == !t.enabled
         | [] => false
     | none => false)

/-- A flag flipped `n` times. -/
def flipN (v : Bool) : Nat → Bool
  | 0 => v
  | n + 1 => flipN (!v) n

/-- The exact sequence of `toggle-video` messages produced by `n` successive
toggles starting from video-off flag `v`. -/
def videoToggleTrace (roomId pid : String) (v : Bool) : Nat → List EmitMsg
  | 0 => []
  | n + 1 =>
      EmitMsg.videoStateChanged roomId pid (!v) :: videoToggleTrace roomId pid (!v) n

theorem videoToggleTrace_length (roomId pid : String) :
    ∀ (n : Nat) (v : Bool), (videoToggleTrace roomId pid v n).length = n := by
  intro n
  induction n with
  | zero => intro v; rfl
  | succ n ih => intro v; simp [videoToggleTrace, ih]

theorem toggleVideo_step (st : HookState) (pid : String)
    (h : videoReadyB st = true) (hpid : st.myPeerId = some pid) :
    videoReadyB (toggleVideo st) = true ∧
    (toggleVideo st).myPeerId = some pid ∧
    (toggleVideo st).roomId = st.roomId ∧
    (toggleVideo st).peers = st.peers ∧
    (toggleVideo st).participants = st.participants ∧
    (toggleVideo st).pending = st.pending ∧
    (toggleVideo st).createdCalls = st.createdCalls ∧
    (toggleVideo st).closedCalls = st.closedCalls ∧
    (toggleVideo st).answeredWith = st.answeredWith ∧
    (toggleVideo st).isVideoOff = !st.isVideoOff ∧
    (toggleVideo st).emitted =
      st.emitted ++ [EmitMsg.videoStateChanged st.roomId pid (!st.isVideoOff)] := by
  cases hls : st.localStream with
  | none => simp only [videoReadyB, hls] at h; simp at h
  | some s =>
      cases hvt : s.videoTracks with
      | nil => simp only [videoReadyB, hls, hvt] at h; simp at h
      | cons t ts =>
          simp only [videoReadyB, hls, hvt, Bool.and_eq_true, beq_iff_eq] at h
          obtain ⟨⟨hsp, _⟩, hoff⟩ := h
          simp [toggleVideo, videoReadyB, hls, hvt, hsp, hpid, hoff, Bool.not_not]

theorem toggleVideo_iterate (n : Nat) :
    ∀ (st : HookState) (pid : String),
      videoReadyB st = true → st.myPeerId = some pid →
      videoReadyB (toggleVideo^[n] st) = true ∧
      (toggleVideo^[n] st).myPeerId = some pid ∧
      (toggleVideo^[n] st).roomId = st.roomId ∧
      (toggleVideo^[n] st).peers = st.peers ∧
      (toggleVideo^[n] st).participants = st.participants ∧
      (toggleVideo^[n] st).pending = st.pending ∧
      (toggleVideo^[n] st).createdCalls = st.createdCalls ∧
      (toggleVideo^[n] st).closedCalls = st.closedCalls ∧
      (toggleVideo^[n] st).answeredWith = st.answeredWith ∧
      (toggleVideo^[n] st).isVideoOff = flipN st.isVideoOff n ∧
      (toggleVideo^[n] st).emitted =
        st.emitted ++ videoToggleTrace st.roomId pid st.isVideoOff n := by
  induction n with
  | zero =>
      intro st pid h hpid
      exact ⟨h, hpid, rfl, rfl, rfl, rfl, rfl, rfl, rfl, rfl, by simp [videoToggleTrace]⟩
  | succ n ih =>
      intro st pid h hpid
      obtain ⟨s1, s2, s3, s4, s5, s6, s7, s8, s9, s10, s11⟩ := toggleVideo_step st pid h hpid
      obtain ⟨i1, i2, i3, i4, i5, i6, i7, i8, i9, i10, i11⟩ := ih (toggleVideo st) pid s1 s2
      rw [Function.iterate_succ_apply]
      refine ⟨i1, i2, i3.trans s3, i4.trans s4, i5.trans s5, i6.trans s6, i7.trans s7,
        i8.trans s8, i9.trans s9, ?_, ?_⟩
      · rw [i10, s10]
        rfl
      · rw [i11, s11, s3, s10]
        simp [videoToggleTrace, List.append_assoc]

/-- C5: in the Joined steady state (socket present, own peer id known, a
local video track in sync with `isVideoOff`), calling `toggleVideo` `n`
times flips the local video-off flag `n` times while the registry — the
records and the connection handles they hold — is exactly unchanged; no
handle is created or closed, no call is answered, no origination is
scheduled (no renegotiation), and the emitted messages are exactly one
`toggle-video` notification per invocation. -/
theorem C5_toggleVideo_flips_without_renegotiation :
    ∀ (n : Nat) (st : HookState) (pid : String),
      videoReadyB st = true → st.myPeerId = some pid →
      (toggleVideo^[n] st).peers = st.peers ∧
      (toggleVideo^[n] st).createdCalls = st.createdCalls ∧
      (toggleVideo^[n] st).closedCalls = st.closedCalls ∧
      (toggleVideo^[n] st).answeredWith = st.answeredWith ∧
      (toggleVideo^[n] st).pending = st.pending ∧
      (toggleVideo^[n] st).isVideoOff = flipN st.isVideoOff n ∧
      (toggleVideo^[n] st).emitted =
        st.emitted ++ videoToggleTrace st.roomId pid st.isVideoOff n ∧
      (videoToggleTrace st.roomId pid st.isVideoOff n).length = n := by
  intro n st pid h hpid
  obtain ⟨_, _, _, i4, _, i6, i7, i8, i9, i10, i11⟩ := toggleVideo_iterate n st pid h hpid
  exact ⟨i4, i7, i8, i9, i6, i10, i11, videoToggleTrace_length _ _ n _⟩

/-- C5 (witness): three toggles on the demo Joined state. -/
theorem C5_toggleVideo_witness :
    videoReadyB demoJoined = true ∧
    (toggleVideo^[3] demoJoined).peers = demoJoined.peers ∧
    (toggleVideo^[3] demoJoined).createdCalls = demoJoined.createdCalls ∧
    (toggleVideo^[3] demoJoined).isVideoOff = flipN demoJoined.isVideoOff 3 ∧
    (toggleVideo^[3] demoJoined).emitted =
      demoJoined.emitted ++
        videoToggleTrace demoJoined.roomId "me" demoJoined.isVideoOff 3 :=
  ⟨by decide,
   (C5_toggleVideo_flips_without_renegotiation 3 demoJoined "me" (by decide) rfl).1,
   (C5_toggleVideo_flips_without_renegotiation 3 demoJoined "me" (by decide) rfl).2.1,
   (C5_toggleVideo_flips_without_renegotiation 3 demoJoined "me" (by decide) rfl).2.2.2.2.2.1,
   (C5_toggleVideo_flips_without_renegotiation 3 demoJoined "me" (by decide) rfl).2.2.2.2.2.2.1⟩

theorem rosterStep_isSome (m : List (String × PeerConnection)) (e : RosterEntry)
    (p : String) : (mapGet (rosterStep m e) p).isSome = (mapGet m p).isSome := by
  cases hx : mapGet m e.peerId with
  | none => simp [rosterStep, hx]
  | some ex =>
      by_cases hp : p = e.peerId
      · subst hp
        simp [rosterStep, hx, mapGet_mapSet]
      · simp [rosterStep, hx, mapGet_mapSet_ne _ _ _ _ hp]

theorem rosterStep_ne (m : List (String × PeerConnection)) (e : RosterEntry)
    (p : String) (hp : p ≠ e.peerId) : mapGet (rosterStep m e) p = mapGet m p := by
  cases hx : mapGet m e.peerId with
  | none => simp [rosterStep, hx]
  | some ex => simp [rosterStep, hx, mapGet_mapSet_ne _ _ _ _ hp]

theorem rosterStep_frame (m : List (String × PeerConnection)) (e : RosterEntry)
    (p : String) (r' : PeerConnection)
    (h : mapGet (rosterStep m e) p = some r') :
    ∃ r, mapGet m p = some r ∧ r'.peerId = r.peerId ∧ r'.call = r.call ∧
      r'.stream = r.stream := by
  cases hx : mapGet m e.peerId with
  | none =>
      rw [rosterStep, hx] at h
      exact ⟨r', h, rfl, rfl, rfl⟩
  | some ex =>
      rw [rosterStep, hx] at h
      by_cases hp : p = e.peerId
      · subst hp
        rw [mapGet_mapSet_self] at h
        injection h with h'
        subst h'
        exact ⟨ex, hx, rfl, rfl, rfl⟩
      · rw [mapGet_mapSet_ne _ _ _ _ hp] at h
        exact ⟨r', h, rfl, rfl, rfl⟩

theorem applyRoster_isSome :
    ∀ (es : List RosterEntry) (m : List (String × PeerConnection)) (p : String),
      (mapGet (applyRosterToPeers m es) p).isSome = (mapGet m p).isSome := by
  intro es
  induction es with
  | nil => intro m p; rfl
  | cons e tl ih =>
      intro m p
      rw [applyRosterToPeers, List.foldl_cons]
      exact (ih (rosterStep m e) p).trans (rosterStep_isSome m e p)

theorem applyRoster_not_mem :
    ∀ (es : List RosterEntry) (m : List (String × PeerConnection)) (p : String),
      p ∉ es.map RosterEntry.peerId →
      mapGet (applyRosterToPeers m es) p = mapGet m p := by
  intro es
  induction es with
  | nil => intro m p _; rfl
  | cons e tl ih =>
      intro m p hp
      simp only [List.map_cons, List.mem_cons, not_or] at hp
      rw [applyRosterToPeers, List.foldl_cons]
      exact (ih (rosterStep m e) p hp.2).trans (rosterStep_ne m e p hp.1)

theorem applyRoster_frame :
    ∀ (es : List RosterEntry) (m : List (String × PeerConnection)) (p : String)
      (r' : PeerConnection),
      mapGet (applyRosterToPeers m es) p = some r' →
      ∃ r, mapGet m p = some r ∧ r'.peerId = r.peerId ∧ r'.call = r.call ∧
        r'.stream = r.stream := by
  intro es
  induction es with
  | nil => intro m p r' h; exact ⟨r', h, rfl, rfl, rfl⟩
  | cons e tl ih =>
      intro m p r' h
      rw [applyRosterToPeers, List.foldl_cons] at h
      obtain ⟨rmid, hmid, h1, h2, h3⟩ := ih (rosterStep m e) p r' h
      obtain ⟨r, hr, g1, g2, g3⟩ := rosterStep_frame m e p rmid hmid
      exact ⟨r, hr, h1.trans g1, h2.trans g2, h3.trans g3⟩

theorem applyRoster_updates :
    ∀ (es : List RosterEntry) (m : List (String × PeerConnection)) (e : RosterEntry),
      e ∈ es → (es.map RosterEntry.peerId).Nodup →
      ∀ r, mapGet m e.peerId = some r →
        mapGet (applyRosterToPeers m es) e.peerId =
          some { r with userName := e.userName,
                        isVideoEnabled := e.isVideoEnabled.getD true } := by
  intro es
  induction es with
  | nil => intro m e he; exact absurd he (List.not_mem_nil e)
  | cons hd tl ih =>
      intro m e he hnd r hr
      simp only [List.map_cons, List.nodup_cons] at hnd
      rw [applyRosterToPeers, List.foldl_cons]
      rcases List.mem_cons.mp he with heq | htl
      · subst heq
        have hstep : mapGet (rosterStep m e) e.peerId =
            some { r with userName := e.userName,
                          isVideoEnabled := e.isVideoEnabled.getD true } := by
          rw [rosterStep, hr, mapGet_mapSet_self]
        have hout : e.peerId ∉ tl.map RosterEntry.peerId := hnd.1
        exact (applyRoster_not_mem tl (rosterStep m e) e.peerId hout).trans hstep
      · have hne : e.peerId ≠ hd.peerId := by
          intro hcontra
          exact hnd.1 (hcontra ▸ List.mem_map_of_mem RosterEntry.peerId htl)
        have hr' : mapGet (rosterStep m hd) e.peerId = some r :=
          (rosterStep_ne m hd e.peerId hne).trans hr
        exact ih (rosterStep m hd) e htl hnd.2 r hr'

theorem cacheNames_not_mem :
    ∀ (es : List RosterEntry) (m : List (String × String)) (p : String),
      p ∉ es.map RosterEntry.peerId →
      mapGet (cacheRosterNames m es) p = mapGet m p := by
  intro es
  induction es with
  | nil => intro m p _; rfl
  | cons e tl ih =>
      intro m p hp
      simp only [List.map_cons, List.mem_cons, not_or] at hp
      rw [cacheRosterNames, List.foldl_cons]
      exact (ih (mapSet m e.peerId e.userName) p hp.2).trans
        (mapGet_mapSet_ne _ _ _ _ hp.1)

theorem cacheNames_mem :
    ∀ (es : List RosterEntry) (m : List (String × String)) (e : RosterEntry),
      e ∈ es → (es.map RosterEntry.peerId).Nodup →
      mapGet (cacheRosterNames m es) e.peerId = some e.userName := by
  intro es
  induction es with
  | nil => intro m e he; exact absurd he (List.not_mem_nil e)
  | cons hd tl ih =>
      intro m e he hnd
      simp only [List.map_cons, List.nodup_cons] at hnd
      rw [cacheRosterNames, List.foldl_cons]
      rcases List.mem_cons.mp he with heq | htl
      · subst heq
        exact (cacheNames_not_mem tl _ e.peerId hnd.1).trans (mapGet_mapSet_self _ _ _)
      · exact ih (mapSet m hd.peerId hd.userName) e htl hnd.2

/-- A demo Joined state with two connected peer records. -/
def demoWithPeers : HookState :=
  { demoJoined with
      peers :=
        [("A", { peerId := "A", userName := "Usuario", call := some ⟨0⟩,
                 stream := some 1, isVideoEnabled := true }),
         ("B", { peerId := "B", userName := "Bob", call := some ⟨1⟩,
                 stream := some 2, isVideoEnabled := true })]
      createdCalls := [(0, "A"), (1, "B")]
      nextCallId := 2 }

/-- A demo roster snapshot: one entry matching record "A", one unknown peer "Y". -/
def demoRoster : List RosterEntry :=
  [⟨"A", "Ann", some false⟩, ⟨"Y", "Yve", none⟩]

/-- C6: applying a roster snapshot never creates or removes a PeerRecord
(the registry's domain is unchanged, also under double application); records
whose peerId is absent from the snapshot are left exactly untouched; a
record matched by a snapshot entry keeps its peerId, connection handle and
remote stream and only takes the entry's displayName and videoEnabled; an
entry (matched or not) gets its peerId-to-displayName mapping cached; and
the rest of the hook state (local stream, pending originations, handle
ledgers, emitted messages) is unaffected. -/
theorem C6_roster_merge_nondestructive :
    ∀ (st : HookState) (es : List RosterEntry),
      (∀ p, (mapGet (handleGetUsers st es).peers p).isSome =
          (mapGet st.peers p).isSome) ∧
      (∀ p, p ∉ es.map RosterEntry.peerId →
          mapGet (handleGetUsers st es).peers p = mapGet st.peers p) ∧
      (∀ p r', mapGet (handleGetUsers st es).peers p = some r' →
          ∃ r, mapGet st.peers p = some r ∧ r'.peerId = r.peerId ∧
            r'.call = r.call ∧ r'.stream = r.stream) ∧
      (∀ e, e ∈ es → (es.map RosterEntry.peerId).Nodup →
          (∀ r, mapGet st.peers e.peerId = some r →
              mapGet (handleGetUsers st es).peers e.peerId =
                some { r with userName := e.userName,
                              isVideoEnabled := e.isVideoEnabled.getD true }) ∧
          mapGet (handleGetUsers st es).participants e.peerId = some e.userName) ∧
      (handleGetUsers st es).localStream = st.localStream ∧
      (handleGetUsers st es).pending = st.pending ∧
      (handleGetUsers st es).createdCalls = st.createdCalls ∧
      (handleGetUsers st es).closedCalls = st.closedCalls ∧
      (handleGetUsers st es).emitted = st.emitted ∧
      (∀ p, (mapGet (handleGetUsers (handleGetUsers st es) es).peers p).isSome =
          (mapGet st.peers p).isSome) := by
  intro st es
  exact ⟨fun p => applyRoster_isSome es st.peers p,
         fun p hp => applyRoster_not_mem es st.peers p hp,
         fun p r' h => applyRoster_frame es st.peers p r' h,
         fun e he hnd => ⟨fun r hr => applyRoster_updates es st.peers e he hnd r hr,
                          cacheNames_mem es st.participants e he hnd⟩,
         rfl, rfl, rfl, rfl, rfl,
         fun p => (applyRoster_isSome es _ p).trans (applyRoster_isSome es st.peers p)⟩

/-- C6 (witness): the roster contract at a concrete state — record "B" is
absent from the snapshot and untouched; matched record "A" takes name "Ann"
and video off while keeping handle and stream; unknown "Y" is only cached. -/
theorem C6_roster_merge_witness :
    ("B" ∉ demoRoster.map RosterEntry.peerId) ∧
    mapGet (handleGetUsers demoWithPeers demoRoster).peers "B" =
      mapGet demoWithPeers.peers "B" ∧
    (demoRoster.map RosterEntry.peerId).Nodup ∧
    mapGet (handleGetUsers demoWithPeers demoRoster).peers "A" =
      some { peerId := "A", userName := "Ann", call := some ⟨0⟩,
             stream := some 1, isVideoEnabled := false } ∧
    mapGet (handleGetUsers demoWithPeers demoRoster).participants "Y" = some "Yve" ∧
    (mapGet (handleGetUsers demoWithPeers demoRoster).peers "Y").isSome =
      (mapGet demoWithPeers.peers "Y").isSome :=
  ⟨by decide,
   (C6_roster_merge_nondestructive demoWithPeers demoRoster).2.1 "B" (by decide),
   by decide,
   ((C6_roster_merge_nondestructive demoWithPeers demoRoster).2.2.2.1
      ⟨"A", "Ann", some false⟩ (by decide) (by decide)).1
     { peerId := "A", userName := "Usuario", call := some ⟨0⟩,
       stream := some 1, isVideoEnabled := true } (by decide),
   ((C6_roster_merge_nondestructive demoWithPeers demoRoster).2.2.2.1
      ⟨"Y", "Yve", none⟩ (by decide) (by decide)).2,
   (C6_roster_merge_nondestructive demoWithPeers demoRoster).1 "Y"⟩

/-- C7: for every state — whatever the registry, initialization or error
fields hold — an incoming call is answered immediately with the stream the
init closure captured from `getUserMedia`, and the registry is not touched
at answer time; the caller's PeerRecord appears only when the remote stream
arrives, and at that point it carries the caller's id, the display name
cached for the caller (or the "Usuario" placeholder), the incoming call's
handle, and a non-absent remote stream. -/
theorem C7_answer_unconditional_record_on_stream :
    ∀ (st : HookState) (c : IncomingCall) (s : MediaStream) (rs : Nat),
      (handleIncomingCall st c s).answeredWith =
        st.answeredWith ++ [(c.handleId, s)] ∧
      (handleIncomingCall st c s).peers = st.peers ∧
      (handleIncomingCall st c s).localStream = st.localStream ∧
      (handleIncomingCall st c s).emitted = st.emitted ∧
      mapGet (handleIncomingStream st c rs).peers c.peer =
        some { peerId := c.peer,
               userName := (mapGet st.participants c.peer).getD "Usuario",
               call := some ⟨c.handleId⟩, stream := some rs,
               isVideoEnabled := true } ∧
      (handleIncomingStream st c rs).answeredWith = st.answeredWith ∧
      (handleIncomingStream st c rs).createdCalls = st.createdCalls := by
  intro st c s rs
  refine ⟨rfl, rfl, rfl, rfl, ?_, rfl, rfl⟩
  simp [handleIncomingStream, mapGet_mapSet_self]

/-- C8 (counterexample): a per-peer connection error removes the record but
does not close its connection handle.  In a state with two connected peers,
the record for "A" holds the open handle 0; after `call.on('error')` fires
for "A" the record is gone and peer "B" is untouched, yet no `call.close()`
was performed (`closedCalls` is still empty) — the claim's "its connection
handle closed if present" is false on the error path. -/
theorem C8_error_path_counterexample :
    mapGet demoWithPeers.peers "A" =
      some { peerId := "A", userName := "Usuario", call := some ⟨0⟩,
             stream := some 1, isVideoEnabled := true } ∧
    demoWithPeers.closedCalls = [] ∧
    mapGet (callErrorHandler demoWithPeers "A").peers "A" = none ∧
    mapGet (callErrorHandler demoWithPeers "A").peers "B" =
      mapGet demoWithPeers.peers "B" ∧
    (callErrorHandler demoWithPeers "A").closedCalls = [] := by
  decide

/-- C8 (amended): per-peer error, close and leave events are local.  The
error and close handlers delete only that peer's record — every other
record, the local stream, the error/init flags and the emitted messages are
unchanged — but do not themselves close the connection handle (for a close
event the handle is already closed; for an error it is simply dropped).
The leave handler (`user-disconnected`) closes the handle if the record has
one, then deletes only that record, and is a complete no-op on a missing
key.  No path tears down the session. -/
theorem C8_per_peer_removal_is_local :
    ∀ (st : HookState) (p : String),
      (callErrorHandler st p).peers = mapDelete st.peers p ∧
      (callErrorHandler st p).closedCalls = st.closedCalls ∧
      (callErrorHandler st p).localStream = st.localStream ∧
      (callErrorHandler st p).isInitialized = st.isInitialized ∧
      (callErrorHandler st p).errorMsg = st.errorMsg ∧
      (callErrorHandler st p).emitted = st.emitted ∧
      (callCloseHandler st p).peers = mapDelete st.peers p ∧
      (callCloseHandler st p).closedCalls = st.closedCalls ∧
      (callCloseHandler st p).localStream = st.localStream ∧
      (∀ q, q ≠ p → mapGet (callErrorHandler st p).peers q = mapGet st.peers q) ∧
      (∀ q, q ≠ p →
          mapGet (handleUserDisconnected st p).peers q = mapGet st.peers q) ∧
      (∀ pc h, mapGet st.peers p = some pc → pc.call = some h →
          (handleUserDisconnected st p).closedCalls = st.closedCalls ++ [h.id] ∧
          (handleUserDisconnected st p).peers = mapDelete st.peers p ∧
          (handleUserDisconnected st p).localStream = st.localStream ∧
          (handleUserDisconnected st p).isInitialized = st.isInitialized ∧
          (handleUserDisconnected st p).emitted = st.emitted) ∧
      (mapGet st.peers p = none → handleUserDisconnected st p = st) := by
  intro st p
  refine ⟨rfl, rfl, rfl, rfl, rfl, rfl, rfl, rfl, rfl, ?_, ?_, ?_, ?_⟩
  · intro q hq
    exact mapGet_mapDelete_ne st.peers p q hq
  · intro q hq
    cases hx : mapGet st.peers p with
    | none => simp [handleUserDisconnected, hx, mapGet_mapDelete_ne st.peers p q hq]
    | some pc =>
        cases hc : pc.call with
        | none => simp [handleUserDisconnected, hx, hc,
            mapGet_mapDelete_ne st.peers p q hq]
        | some h => simp [handleUserDisconnected, hx, hc,
            mapGet_mapDelete_ne st.peers p q hq]
  · intro pc h hpc hcall
    simp [handleUserDisconnected, hpc, hcall]
  · intro h0
    simp [handleUserDisconnected, h0, mapDelete_of_absent st.peers p h0]

/-- C8 (witness): the amended contract at the demo state — error on "A"
leaves "B" in place; leave of "A" closes handle 0; leave of unknown "Z" is
a no-op. -/
theorem C8_per_peer_removal_witness :
    mapGet (callErrorHandler demoWithPeers "A").peers "B" =
      mapGet demoWithPeers.peers "B" ∧
    (handleUserDisconnected demoWithPeers "A").closedCalls =
      demoWithPeers.closedCalls ++ [0] ∧
    handleUserDisconnected demoWithPeers "Z" = demoWithPeers :=
  ⟨(C8_per_peer_removal_is_local demoWithPeers "A").2.2.2.2.2.2.2.2.2.1 "B" (by decide),
   ((C8_per_peer_removal_is_local demoWithPeers "A").2.2.2.2.2.2.2.2.2.2.2.1
      { peerId := "A", userName := "Usuario", call := some ⟨0⟩,
        stream := some 1, isVideoEnabled := true } ⟨0⟩ (by decide) rfl).1,
   (C8_per_peer_removal_is_local demoWithPeers "Z").2.2.2.2.2.2.2.2.2.2.2.2
     (by decide)⟩

/-- C9: receiving a `user-toggled-video` notification for a known peerId
rewrites only that record's `videoEnabled` to the negation of the received
video-off flag; an unknown peerId is a complete no-op; no record is created
or deleted, and no origination, answer, close or emission happens. -/
theorem C9_peer_video_notification :
    ∀ (st : HookState) (p : String) (v : Bool),
      (∀ pc, mapGet st.peers p = some pc →
          handleUserToggledVideo st p v =
            { st with peers := mapSet st.peers p { pc with isVideoEnabled := !v } }) ∧
      (mapGet st.peers p = none → handleUserToggledVideo st p v = st) ∧
      (∀ q, (mapGet (handleUserToggledVideo st p v).peers q).isSome =
          (mapGet st.peers q).isSome) ∧
      (handleUserToggledVideo st p v).pending = st.pending ∧
      (handleUserToggledVideo st p v).createdCalls = st.createdCalls ∧
      (handleUserToggledVideo st p v).answeredWith = st.answeredWith ∧
      (handleUserToggledVideo st p v).closedCalls = st.closedCalls ∧
      (handleUserToggledVideo st p v).emitted = st.emitted ∧
      (handleUserToggledVideo st p v).localStream = st.localStream := by
  intro st p v
  refine ⟨?_, ?_, ?_, ?_, ?_, ?_, ?_, ?_, ?_⟩
  · intro pc hpc
    simp [handleUserToggledVideo, hpc]
  · intro h0
    simp [handleUserToggledVideo, h0]
  · intro q
    cases hx : mapGet st.peers p with
    | none => simp [handleUserToggledVideo, hx]
    | some pc =>
        simp only [handleUserToggledVideo, hx]
        rw [mapGet_mapSet]
        by_cases hq : q = p
        · subst hq
          simp [hx]
        · simp [hq]
  all_goals cases hx : mapGet st.peers p <;> simp [handleUserToggledVideo, hx]

/-- C9 (witness): the notification at a concrete state — known peer "A"
takes videoEnabled = false from videoOff = true; unknown "Z" is a no-op. -/
theorem C9_peer_video_notification_witness :
    handleUserToggledVideo demoWithPeers "A" true =
      { demoWithPeers with
          peers := mapSet demoWithPeers.peers "A"
            { peerId := "A", userName := "Usuario", call := some ⟨0⟩,
              stream := some 1, isVideoEnabled := false } } ∧
    handleUserToggledVideo demoWithPeers "Z" true = demoWithPeers :=
  ⟨(C9_peer_video_notification demoWithPeers "A" true).1
     { peerId := "A", userName := "Usuario", call := some ⟨0⟩,
       stream := some 1, isVideoEnabled := true } (by decide),
   (C9_peer_video_notification demoWithPeers "Z" true).2.1 (by decide)⟩

/-- C10: with no local stream, both toggles are complete no-ops (state
unchanged, so flags keep their values and nothing is emitted); with a stream
lacking the corresponding track, the respective toggle is a no-op; and
`toggleMute` never emits a signaling message, even when it does flip the
audio track. -/
theorem C10_toggles_noop_without_tracks :
    ∀ (st : HookState),
      (st.localStream = none → toggleMute st = st ∧ toggleVideo st = st) ∧
      (∀ s, st.localStream = some s → s.audioTracks = [] → toggleMute st = st) ∧
      (∀ s, st.localStream = some s → s.videoTracks = [] → toggleVideo st = st) ∧
      (toggleMute st).emitted = st.emitted := by
  intro st
  refine ⟨?_, ?_, ?_, ?_⟩
  · intro h
    exact ⟨by simp [toggleMute, h], by simp [toggleVideo, h]⟩
  · intro s hs ha
    simp [toggleMute, hs, ha]
  · intro s hs hv
    simp [toggleVideo, hs, hv]
  · cases hls : st.localStream with
    | none => simp [toggleMute, hls]
    | some s =>
        cases ha : s.audioTracks with
        | nil => simp [toggleMute, hls, ha]
        | cons t ts => simp [toggleMute, hls, ha]

/-- A demo state whose acquired stream has an audio track but no video track. -/
def demoAudioOnly : HookState :=
  { demoJoined with
      localStream := some { audioTracks := [{ enabled := true, stopped := false }],
                            videoTracks := [] } }

/-- C10 (witness): the no-op cases and the never-emits property at concrete
states: a mounted state with no stream, an audio-only stream for
`toggleVideo`, and a full stream for the `toggleMute` emission check. -/
theorem C10_toggles_noop_witness :
    toggleMute (mkInitialState "482913" "Alice" true true) =
      mkInitialState "482913" "Alice" true true ∧
    toggleVideo demoAudioOnly = demoAudioOnly ∧
    (toggleMute demoJoined).emitted = demoJoined.emitted :=
  ⟨((C10_toggles_noop_without_tracks (mkInitialState "482913" "Alice" true true)).1
      rfl).1,
   (C10_toggles_noop_without_tracks demoAudioOnly).2.2.1
     { audioTracks := [{ enabled := true, stopped := false }], videoTracks := [] }
     rfl rfl,
   (C10_toggles_noop_without_tracks demoJoined).2.2.2⟩

end JoinUs
